import Mathlib

/-
Verification development for the query-analyzer-python repository.

The definitions below are a shallow embedding of the feature-extraction and
orchestration code:
  - src/query_parser/feature_extractor.py (FeatureExtractor)
  - src/query_parser/furniture_parser.py (FurnitureParser.structureQuery)
  - src/config/config.py (ParserResult, PriceRange, SuggestionResult)
  - src/query_suggestion/suggestion.py (QuerySuggestion)
Modules the repository imports but that are not present under src/
(config/constants.py, utils/helpers.py, the product-type, price and
classification extractors) are modelled from the specification and marked as
such in their doc comments.
-/

/-- Python str.lower for the ASCII text handled by the parser. -/
def lowerStr (s : String) : String := String.mk (s.toList.map Char.toLower)

/-- The needle matches at the head of the haystack. -/
def subAt : List Char → List Char → Bool
  | [], _ => true
  | _ :: _, [] => false
  | c :: cs, d :: ds => c == d && subAt cs ds

/-- The needle occurs somewhere in the haystack. -/
def hasSub (needle hay : List Char) : Bool :=
  match hay with
  | [] => needle.isEmpty
  | _ :: t => subAt needle hay || hasSub needle t

/-- Python substring membership, the `a in b` test on strings. -/
def strHas (needle hay : String) : Bool := hasSub needle.toList hay.toList

/-- Helper for pySplit: accumulate the current word in reverse. -/
def splitWsAux : List Char → List Char → List String
  | [], acc => if acc.isEmpty then [] else [String.mk acc.reverse]
  | c :: cs, acc =>
    if c.isWhitespace then
      if acc.isEmpty then splitWsAux cs [] else String.mk acc.reverse :: splitWsAux cs []
    else splitWsAux cs (c :: acc)

/-- Python str.split() with no arguments: split on whitespace runs, no empty tokens. -/
def pySplit (s : String) : List String := splitWsAux s.toList []

/-- Helper for pyReplace with explicit fuel. -/
def pyReplaceAux : Nat → List Char → List Char → List Char → List Char
  | 0, _, _, hay => hay
  | fuel + 1, old, new, hay =>
    match hay with
    | [] => []
    | c :: t =>
      if subAt old hay && !old.isEmpty then
        new ++ pyReplaceAux fuel old new (hay.drop old.length)
      else c :: pyReplaceAux fuel old new t

/-- Python str.replace: replace every non-overlapping occurrence, left to right. -/
def pyReplace (s old new : String) : String :=
  String.mk (pyReplaceAux s.toList.length old.toList new.toList s.toList)

/-- Association-list lookup, the Python dict read `d[k]` / `d.get(k)`. -/
def alookup : List (String × String) → String → Option String
  | [], _ => none
  | p :: t, k => if p.1 == k then some p.2 else alookup t k

/-- Association-list lookup on Nat keys, for the j2len dictionary below. -/
def lookupNat : List (Nat × Nat) → Nat → Option Nat
  | [], _ => none
  | p :: t, k => if p.1 == k then some p.2 else lookupNat t k

/-- Ascending positions j in [blo, bhi) with b[j] = c, difflib's b2j rows. -/
def charPositions (b : List Char) (c : Char) (blo bhi : Nat) : List Nat :=
  (List.range bhi).filter (fun j => decide (blo ≤ j) && (b.getD j ' ' == c))

/-- One row (one index i of a) of difflib's find_longest_match dynamic program:
returns the updated j2len table and the updated best (i, j, size) triple. -/
def flmRow (a b : List Char) (blo bhi : Nat) (j2len : List (Nat × Nat))
    (best : Nat × Nat × Nat) (i : Nat) : List (Nat × Nat) × (Nat × Nat × Nat) :=
  (charPositions b (a.getD i ' ') blo bhi).foldl
    (fun acc j =>
      let k := if j == 0 then 1 else (lookupNat j2len (j - 1)).getD 0 + 1
      let best2 := if acc.2.2.2 < k then (i + 1 - k, j + 1 - k, k) else acc.2
      ((j, k) :: acc.1, best2))
    ([], best)

/-- difflib SequenceMatcher.find_longest_match over a[alo:ahi] and b[blo:bhi]
(no junk handling: the inputs here are far below the autojunk size). -/
def flm (a b : List Char) (alo ahi blo bhi : Nat) : Nat × Nat × Nat :=
  (((List.range ahi).drop alo).foldl
    (fun acc i => flmRow a b blo bhi acc.1 acc.2 i)
    ([], (alo, blo, 0))).2

/-- Total size of difflib's matching blocks, the M in ratio = 2M/T. -/
def matchTotal (a b : List Char) : Nat → Nat → Nat → Nat → Nat → Nat
  | 0, _, _, _, _ => 0
  | fuel + 1, alo, ahi, blo, bhi =>
    let r := flm a b alo ahi blo bhi
    if r.2.2 == 0 then 0
    else
      r.2.2 + matchTotal a b fuel alo r.1 blo r.2.1
        + matchTotal a b fuel (r.1 + r.2.2) ahi (r.2.1 + r.2.2) bhi

/-- An exact nonnegative rational num/den with positive den, the value space
of similarity scores and thresholds (Python floats modelled exactly). -/
structure Score where
  num : Nat
  den : Nat
deriving DecidableEq

/-- Rational comparison x <= y by cross multiplication. -/
def scoreLe (x y : Score) : Bool := Nat.ble (x.num * y.den) (y.num * x.den)

/-- Rational comparison x < y by cross multiplication. -/
def scoreLt (x y : Score) : Bool := Nat.blt (x.num * y.den) (y.num * x.den)

/-- Modelled from the spec: utils/helpers.py (fuzzyMatch) is not under src/.
The spec describes a normalized string-similarity score; feature_extractor.py
imports difflib SequenceMatcher, whose ratio 2M/T is reproduced here exactly
as the fraction with numerator 2M and denominator T (1 for two empty strings). -/
def simScore (x y : String) : Score :=
  let a := x.toList
  let b := y.toList
  let tot := a.length + b.length
  if tot == 0 then { num := 1, den := 1 }
  else { num := 2 * matchTotal a b (tot + 1) 0 a.length 0 b.length, den := tot }

/-- Modelled from the spec: utils/helpers.py (fuzzyMatch) is not under src/.
Spec 4.1 step c: a similarity-threshold fuzzy lookup against the vocabulary
whose top result is taken when it clears the threshold; ties keep the earlier
vocabulary entry. The similarity function is a parameter. -/
def fuzzyMatch (sim : String → String → Score) (phrase : String)
    (vocab : List String) (threshold : Score) : Option String :=
  (vocab.filter (fun v => scoreLe threshold (sim phrase v))).foldl
    (fun best v =>
      match best with
      | none => some v
      | some b => if scoreLt (sim phrase b) (sim phrase v) then some v else best)
    none

/-- The two mappings FeatureExtractor builds in _buildFeatureMappings. -/
structure FeatureMaps where
  synToFeat : List (String × String)
  vocab : List String
deriving DecidableEq

/-- FeatureExtractor._buildFeatureMappings: synonyms are ignored; only each
main feature, lowercased, maps to itself, and joins the fuzzy vocabulary. -/
def buildFeatureMappings (cat : List (String × List String)) : FeatureMaps :=
  { synToFeat := cat.map (fun p => (lowerStr p.1, p.1)),
    vocab := cat.map (fun p => lowerStr p.1) }

/-- FeatureExtractor feature_to_category: each main feature is assigned
CATEGORY_MAPPINGS.get(main_feature, Other). -/
def featureToCategory (cmap : List (String × String))
    (cat : List (String × List String)) : List (String × String) :=
  cat.map (fun p => (p.1, (alookup cmap p.1).getD "Other"))

/-- Modelled from the spec: config/constants.py (FURNITURE_CATEGORY) is not
under src/. The spec names the canonical features l shape, c shape and leather
(4.1a, 4.3, glossary), uses metal legs in its 8 test inputs, and 4.2 needs a
pattern-pass target feature, modelled as reclining. Synonym lists are
irrelevant because _buildFeatureMappings ignores them. -/
def furnitureCategory : List (String × List String) :=
  [("l shape", []), ("c shape", []), ("leather", []), ("metal legs", []),
   ("reclining", [])]

/-- The dict-membership view of the modelled FURNITURE_CATEGORY. -/
def furnitureCategoryKeys : List String := furnitureCategory.map (fun p => p.1)

/-- The FeatureExtractor mappings built from the modelled lexicon. -/
def furnitureMaps : FeatureMaps := buildFeatureMappings furnitureCategory

/-- The furniture-part context terms of FeatureExtractor._hasContextualMatch. -/
def furnitureParts : List String := ["sofa", "chair", "back", "seat", "arm", "cushion"]

/-- FeatureExtractor._hasContextualMatch: a phrase containing leather is
accepted only if a furniture-part term occurs (as a substring) in the joined
window words[max(0, position - 2) : min(len(words), position + 3)]; every
other phrase is accepted unconditionally. -/
def hasContextualMatch (phrase : String) (words : List String) (position : Nat) : Bool :=
  if strHas "leather" phrase then
    let lo := position - 2
    let hi := min words.length (position + 3)
    let ctx := (words.drop lo).take (hi - lo)
    let joined := lowerStr (String.intercalate " " ctx)
    furnitureParts.any (fun part => strHas part joined)
  else true

/-- The fuzzy threshold chosen in _getCategoriesFromText: 0.96 for phrases
containing detail or metal, else 0.93. -/
def thresholdFor (phrase : String) : Score :=
  if strHas "detail" phrase || strHas "metal" phrase then { num := 96, den := 100 }
  else { num := 93, den := 100 }

/-- The per-window candidate resolution of _getCategoriesFromText: direct
lexicon lookup first; otherwise, only for phrases longer than 6 characters, a
fuzzy lookup whose result must itself be a lexicon key. -/
def matchPhrase (sim : String → String → Score) (maps : FeatureMaps)
    (phrase : String) : Option String :=
  match alookup maps.synToFeat phrase with
  | some feat => some feat
  | none =>
    if 6 < phrase.length then
      match fuzzyMatch sim phrase maps.vocab (thresholdFor phrase) with
      | some fm => alookup maps.synToFeat fm
      | none => none
    else none

/-- window_indices = list(range(start_idx, start_idx + window_size)). -/
def windowIdx (start size : Nat) : List Nat := (List.range size).map (fun k => start + k)

/-- The scan state of one _getCategoriesFromText call. The accepted field
records the (start, size) of each accepted window; the Python code only keeps
consumed and detected, and accepted is the instrumentation needed to state the
non-overlap invariant (consumed is exactly the union of the accepted windows). -/
structure ScanState where
  consumed : List Nat
  detected : List String
  accepted : List (Nat × Nat)
deriving DecidableEq

/-- consumed_indices = set(), detected_features = []. -/
def initialScanState : ScanState := { consumed := [], detected := [], accepted := [] }

/-- The skip test: any(idx in consumed_indices for idx in window_indices). -/
def overlapsConsumed (consumed : List Nat) (start size : Nat) : Bool :=
  (windowIdx start size).any (fun i => consumed.contains i)

/-- One iteration of the inner loop of _getCategoriesFromText for the window
w = (size, start): skip on overlap; resolve the phrase; on a match, check
contextual relevance, then append the feature and consume the indices only if
the feature is not already detected. -/
def scanStep (sim : String → String → Score) (maps : FeatureMaps)
    (words : List String) (s : ScanState) (w : Nat × Nat) : ScanState :=
  let size := w.1
  let start := w.2
  if overlapsConsumed s.consumed start size then s
  else
    let phrase := String.intercalate " " ((words.drop start).take size)
    match matchPhrase sim maps phrase with
    | none => s
    | some feat =>
      if hasContextualMatch phrase words start then
        if s.detected.contains feat then s
        else
          { consumed := s.consumed ++ windowIdx start size,
            detected := s.detected ++ [feat],
            accepted := s.accepted ++ [(start, size)] }
      else s

/-- The iteration order of _getCategoriesFromText: window sizes 4, 3, 2, 1,
and for each size the starts range(word_count - window_size + 1). -/
def scanWindows (wc : Nat) : List (Nat × Nat) :=
  ([4, 3, 2, 1].map (fun size =>
    (List.range (wc + 1 - size)).map (fun st => (size, st)))).foldr (· ++ ·) []

/-- Two windows share no token index. -/
def windowsDisjoint (w1 w2 : Nat × Nat) : Prop :=
  ∀ i, i ∈ windowIdx w1.1 w1.2 → i ∉ windowIdx w2.1 w2.2

/-- The whole scan of _getCategoriesFromText on a tokenized text. -/
def scanRun (sim : String → String → Score) (maps : FeatureMaps)
    (words : List String) : ScanState :=
  (scanWindows words.length).foldl (scanStep sim maps words) initialScanState

/-- FeatureExtractor._getCategoriesFromText. -/
def getCategoriesFromText (sim : String → String → Score) (maps : FeatureMaps)
    (text : String) : List String :=
  (scanRun sim maps (pySplit text)).detected

/-- The disambiguation block of extractFeatures (feature_extractor.py lines
208-213): when some detected feature contains l shape and some contains
c shape, the raw-text letter signals decide which exact name is filtered out. -/
def disambiguate (textLower : String) (fs : List String) : List String :=
  if fs.any (fun f => strHas "l shape" f) && fs.any (fun f => strHas "c shape" f) then
    if strHas "l" textLower && !(strHas "c" textLower) then
      fs.filter (fun f => f != "c shape")
    else if strHas "c" textLower && !(strHas "l" textLower) then
      fs.filter (fun f => f != "l shape")
    else fs
  else fs

/-- FeatureExtractor.extractFeatures: lowercase the text, run the windowed
scan, then the l/c-shape disambiguation. The Python method returns this bare
list (its Tuple annotation notwithstanding) and never calls
_extractContextualCategories. -/
def extractFeatures (sim : String → String → Score) (maps : FeatureMaps)
    (text : String) : List String :=
  let textLower := lowerStr text
  disambiguate textLower (getCategoriesFromText sim maps textLower)

/-- FeatureExtractor._extractContextualCategories (lines 160-190), with the
two pattern tables as parameters because config/constants.py is not under
src/. Patterns are literal, so re.search with IGNORECASE is case-insensitive
substring search, and for a lowercase literal pattern every finditer match
equals the pattern and text.replace rewrites all its occurrences at once. -/
def extractContextualCategories (ctxPats fuzzyPats : List (String × String))
    (catKeys : List String) (text : String) : List String :=
  let direct := ctxPats.foldl
    (fun det pf =>
      if strHas (lowerStr pf.1) (lowerStr text) then
        let fl := lowerStr pf.2
        if catKeys.contains fl && !det.contains fl then det ++ [fl] else det
      else det)
    []
  fuzzyPats.foldl
    (fun det tc =>
      if strHas (lowerStr tc.1) (lowerStr text) then
        let corrected := pyReplace text tc.1 tc.2
        ctxPats.foldl
          (fun det2 pf =>
            if strHas (lowerStr pf.1) (lowerStr corrected) then
              let fl := lowerStr pf.2
              if catKeys.contains fl && !det2.contains fl then det2 ++ [fl] else det2
            else det2)
          det
      else det)
    direct

/-- Modelled from the spec: config/constants.py (FEATURE_CONTEXTUAL_PATTERNS)
is not under src/. Spec 4.2: direct patterns each associated with a target
feature; one representative entry mapping the anchor recliner to the lexicon
feature reclining. -/
def featureContextualPatterns : List (String × String) := [("recliner", "reclining")]

/-- Modelled from the spec: config/constants.py (FUZZY_PATTERNS) is not under
src/. Spec 4.2: (typo pattern, correction) pairs; contents unspecified, so the
modelled table is empty. -/
def fuzzyPatterns : List (String × String) := []

/-- config/config.py PriceRange (floats modelled as rationals). -/
structure PriceRange where
  min : Option Score
  max : Option Score
  currency : String
  confidence : Score
deriving DecidableEq

/-- config/config.py ParserResult, including the styles field that the
structureQuery constructor call never supplies. -/
structure ParserResult where
  product_type : List String
  features : List String
  price_range : Option PriceRange
  location : Option String
  styles : List String
  classification_summary : Option String
  extras : Option (List String)
  confidence_score : Score
  original_query : Option String
  suggested_query : Option String
deriving DecidableEq

/-- The Python exceptions structureQuery can raise on its own. -/
inductive PyError where
  | valueError
  | typeError
deriving DecidableEq

/-- FurnitureParser.structureQuery (furniture_parser.py lines 36-69), with the
external collaborators (product-type classifier, classification extractor,
price extractor) as parameters since their modules are not under src/.
Line 51 unpacks the bare list returned by extractFeatures as a pair, which
raises ValueError unless the list has exactly two elements; when unpacking
succeeds, the ParserResult dataclass call at lines 58-68 omits the required
styles field and raises TypeError, so no ParserResult value is ever produced. -/
def structureQuery (classify : String → List String × List Score × String)
    (extractClassification : String → Option String)
    (extractPriceRange : String → Option PriceRange)
    (sim : String → String → Score) (maps : FeatureMaps)
    (query : String) : Except PyError ParserResult :=
  let c := classify query
  let fr := extractFeatures sim maps c.2.2
  match fr with
  | [_featuresStr, _correctedQ] =>
    let _classifications := extractClassification query
    let _price := extractPriceRange query
    Except.error PyError.typeError
  | _ => Except.error PyError.valueError

/-- Modelled from the spec: the product-type classifier collaborator (spec 6)
returns (product types, confidences, possibly corrected query); this stub
returns the Unknown sentinel with one confidence and the query unchanged. -/
def classifyStub (q : String) : List String × List Score × String :=
  (["Unknown"], [{ num := 8, den := 10 }], q)

/-- Modelled from the spec: the classification collaborator, an opaque map. -/
def extractClassificationStub (_ : String) : Option String := none

/-- Modelled from the spec: the price collaborator, empty result. -/
def extractPriceRangeStub (_ : String) : Option PriceRange := none

/-- config/config.py SuggestionResult. The Optional annotations admit None,
but suggestsQuery always supplies lists, modelled directly as list fields. -/
structure SuggestionResult where
  brand_name : List String
  product_name : List String
  styles : List String
deriving DecidableEq

/-- QuerySuggestion.suggestsQuery (suggestion.py lines 31-59), with the
product/brand extractor (a database collaborator) and the style extractor as
parameters; a None from the collaborator is normalized to [] by the Python
`or []` idiom, modelled by Option.getD. -/
def suggestsQuery (extractPB : String → Option (List String) × Option (List String))
    (extractStyles : String → List String) (query : String) : SuggestionResult :=
  let data := extractPB query
  { brand_name := data.2.getD [],
    product_name := data.1.getD [],
    styles := extractStyles query }

/-- Python truthiness of a SuggestionResult: a dataclass instance defines
neither a bool conversion nor a length, so it is always truthy. -/
def dataclassTruthy (_ : SuggestionResult) : Bool := true

/-- The two possible returns of suggestQueryResults: the dictionary with the
keys product_name, brand_name, styles, or the literal False. -/
inductive SuggestOutcome where
  | mapping (product_name brand_name styles : List String)
  | falseVal
deriving DecidableEq

/-- QuerySuggestion.suggestQueryResults (suggestion.py lines 61-80). -/
def suggestQueryResults (extractPB : String → Option (List String) × Option (List String))
    (extractStyles : String → List String) (query : String) : SuggestOutcome :=
  let r := suggestsQuery extractPB extractStyles query
  if dataclassTruthy r then
    SuggestOutcome.mapping r.product_name r.brand_name r.styles
  else
    SuggestOutcome.falseVal

/-! Helper lemmas. -/

/-- alookup results are values of the association list. -/
theorem alookup_mem_values (l : List (String × String)) (k v : String)
    (h : alookup l k = some v) : v ∈ l.map (fun p => p.2) := by
  induction l with
  | nil => simp [alookup] at h
  | cons p t ih =>
    rw [alookup] at h
    split at h
    · exact List.mem_map.mpr ⟨p, List.mem_cons_self p t, Option.some.inj h⟩
    · exact List.mem_cons_of_mem _ (ih h)

/-- alookup succeeds on every key of the association list. -/
theorem alookup_of_mem_keys (l : List (String × String)) (k : String)
    (h : k ∈ l.map (fun p => p.1)) : ∃ v, alookup l k = some v := by
  induction l with
  | nil => simp at h
  | cons p t ih =>
    rw [alookup]
    split
    · exact ⟨p.2, rfl⟩
    next hne =>
      apply ih
      rcases List.mem_map.mp h with ⟨q, hq, hk⟩
      rcases List.mem_cons.mp hq with rfl | hq
      · exact absurd (by simp [hk]) hne
      · exact List.mem_map.mpr ⟨q, hq, hk⟩

/-- Features resolved by matchPhrase are values of the synonym mapping. -/
theorem matchPhrase_mem_values (sim : String → String → Score) (maps : FeatureMaps)
    (phrase feat : String) (h : matchPhrase sim maps phrase = some feat) :
    feat ∈ maps.synToFeat.map (fun p => p.2) := by
  unfold matchPhrase at h
  split at h
  next ha => exact alookup_mem_values _ _ _ (ha.trans h)
  next ha =>
    split at h
    · split at h
      · exact alookup_mem_values _ _ _ h
      · exact absurd h (by simp)
    · exact absurd h (by simp)

/-- The disambiguation pass only removes features. -/
theorem mem_of_disambiguate (tl : String) (fs : List String) (f : String)
    (h : f ∈ disambiguate tl fs) : f ∈ fs := by
  unfold disambiguate at h
  split at h
  · split at h
    · exact List.mem_of_mem_filter h
    · split at h
      · exact List.mem_of_mem_filter h
      · exact h
  · exact h

/-- The disambiguation pass preserves absence of duplicates. -/
theorem disambiguate_nodup (tl : String) (fs : List String) (h : fs.Nodup) :
    (disambiguate tl fs).Nodup := by
  unfold disambiguate
  split
  · split
    · exact h.filter _
    · split
      · exact h.filter _
      · exact h
  · exact h

/-- One scan step never removes consumed indices. -/
theorem scanStep_consumed_mono (sim : String → String → Score) (maps : FeatureMaps)
    (words : List String) (s : ScanState) (w : Nat × Nat) :
    ∀ i ∈ s.consumed, i ∈ (scanStep sim maps words s w).consumed := by
  unfold scanStep
  dsimp only
  split
  · exact fun i h => h
  · split
    · exact fun i h => h
    · split
      · split
        · exact fun i h => h
        · exact fun i h => List.mem_append_left _ h
      · exact fun i h => h

/-- Folding scan steps never removes consumed indices. -/
theorem scanFold_consumed_mono (sim : String → String → Score) (maps : FeatureMaps)
    (words : List String) (ws : List (Nat × Nat)) (s : ScanState) :
    ∀ i ∈ s.consumed, i ∈ (ws.foldl (scanStep sim maps words) s).consumed := by
  induction ws generalizing s with
  | nil => exact fun i h => h
  | cons w ws ih =>
    exact fun i h => ih _ i (scanStep_consumed_mono sim maps words s w i h)

/-- One scan step preserves the invariant: accepted windows lie inside the
consumed set and are pairwise disjoint. -/
theorem scanStep_inv (sim : String → String → Score) (maps : FeatureMaps)
    (words : List String) (s : ScanState) (w : Nat × Nat)
    (h1 : ∀ ww ∈ s.accepted, ∀ i ∈ windowIdx ww.1 ww.2, i ∈ s.consumed)
    (h2 : List.Pairwise windowsDisjoint s.accepted) :
    (∀ ww ∈ (scanStep sim maps words s w).accepted,
        ∀ i ∈ windowIdx ww.1 ww.2, i ∈ (scanStep sim maps words s w).consumed)
  ∧ List.Pairwise windowsDisjoint (scanStep sim maps words s w).accepted := by
  unfold scanStep
  dsimp only
  split
  · exact ⟨h1, h2⟩
  next hov =>
    split
    · exact ⟨h1, h2⟩
    · split
      · split
        · exact ⟨h1, h2⟩
        · constructor
          · intro ww hww i hi
            rcases List.mem_append.mp hww with hmem | hmem
            · exact List.mem_append_left _ (h1 ww hmem i hi)
            · have hww2 : ww = (w.2, w.1) := by simpa using hmem
              subst hww2
              exact List.mem_append_right _ hi
          · rw [List.pairwise_append]
            refine ⟨h2, by simp [windowsDisjoint], ?_⟩
            intro a ha b hb
            have hb2 : b = (w.2, w.1) := by simpa using hb
            subst hb2
            intro i hia hib
            have hic : i ∈ s.consumed := h1 a ha i hia
            apply hov
            unfold overlapsConsumed
            rw [List.any_eq_true]
            exact ⟨i, hib, by simpa using hic⟩
      · exact ⟨h1, h2⟩

/-- Folding scan steps preserves the invariant. -/
theorem scanFold_inv (sim : String → String → Score) (maps : FeatureMaps)
    (words : List String) (ws : List (Nat × Nat)) (s : ScanState)
    (h1 : ∀ ww ∈ s.accepted, ∀ i ∈ windowIdx ww.1 ww.2, i ∈ s.consumed)
    (h2 : List.Pairwise windowsDisjoint s.accepted) :
    (∀ ww ∈ (ws.foldl (scanStep sim maps words) s).accepted,
        ∀ i ∈ windowIdx ww.1 ww.2, i ∈ (ws.foldl (scanStep sim maps words) s).consumed)
  ∧ List.Pairwise windowsDisjoint (ws.foldl (scanStep sim maps words) s).accepted := by
  induction ws generalizing s with
  | nil => exact ⟨h1, h2⟩
  | cons w ws ih =>
    have hs := scanStep_inv sim maps words s w h1 h2
    exact ih _ hs.1 hs.2

/-- One scan step keeps detected features canonical and duplicate-free. -/
theorem scanStep_detected_inv (sim : String → String → Score) (maps : FeatureMaps)
    (words : List String) (s : ScanState) (w : Nat × Nat)
    (h1 : ∀ f ∈ s.detected, f ∈ maps.synToFeat.map (fun p => p.2))
    (h2 : s.detected.Nodup) :
    (∀ f ∈ (scanStep sim maps words s w).detected,
        f ∈ maps.synToFeat.map (fun p => p.2))
  ∧ (scanStep sim maps words s w).detected.Nodup := by
  unfold scanStep
  dsimp only
  split
  · exact ⟨h1, h2⟩
  · split
    · exact ⟨h1, h2⟩
    next feat hm =>
      split
      · split
        · exact ⟨h1, h2⟩
        next hcon =>
          constructor
          · intro f hf
            rcases List.mem_append.mp hf with hmem | hmem
            · exact h1 f hmem
            · have hf2 : f = feat := by simpa using hmem
              subst hf2
              exact matchPhrase_mem_values sim maps _ f hm
          · rw [List.nodup_append]
            refine ⟨h2, List.nodup_singleton _, ?_⟩
            intro a ha hb
            have hb2 : a = feat := by simpa using hb
            subst hb2
            exact hcon (by simpa using ha)
      · exact ⟨h1, h2⟩

/-- Folding scan steps keeps detected features canonical and duplicate-free. -/
theorem scanFold_detected_inv (sim : String → String → Score) (maps : FeatureMaps)
    (words : List String) (ws : List (Nat × Nat)) (s : ScanState)
    (h1 : ∀ f ∈ s.detected, f ∈ maps.synToFeat.map (fun p => p.2))
    (h2 : s.detected.Nodup) :
    (∀ f ∈ (ws.foldl (scanStep sim maps words) s).detected,
        f ∈ maps.synToFeat.map (fun p => p.2))
  ∧ (ws.foldl (scanStep sim maps words) s).detected.Nodup := by
  induction ws generalizing s with
  | nil => exact ⟨h1, h2⟩
  | cons w ws ih =>
    have hs := scanStep_detected_inv sim maps words s w h1 h2
    exact ih _ hs.1 hs.2

/-- Whitespace characters are unchanged by lowercasing. -/
theorem toLower_ws (c : Char) (h : c.isWhitespace = true) :
    (Char.toLower c).isWhitespace = true := by
  simp only [Char.isWhitespace, Bool.or_eq_true, decide_eq_true_eq] at h
  rcases h with ((h | h) | h) | h <;> subst h <;> decide

/-- Splitting an all-whitespace character list yields no tokens. -/
theorem splitWsAux_all_ws (l : List Char) (h : ∀ c ∈ l, c.isWhitespace = true) :
    splitWsAux l [] = [] := by
  induction l with
  | nil => rfl
  | cons c cs ih =>
    have hc := h c (List.mem_cons_self _ _)
    rw [splitWsAux, if_pos hc]
    simp only [List.isEmpty_nil, if_pos rfl]
    exact ih (fun d hd => h d (List.mem_cons_of_mem _ hd))

/-! Claim theorems. -/

/-- C1: the claim fails on the code. FurnitureParser.structureQuery never
returns a ParserResult and there is no catch at the orchestrator boundary:
for every query and all collaborator behaviours, line 51 either raises
ValueError (extractFeatures returns a bare feature list, unpacked as a pair)
or the ParserResult constructor call raises TypeError (the dataclass requires
a styles argument that is not supplied), so an exception always propagates to
the caller. -/
theorem structureQuery_always_errors
    (classify : String → List String × List Score × String)
    (extractClassification : String → Option String)
    (extractPriceRange : String → Option PriceRange)
    (sim : String → String → Score) (maps : FeatureMaps) (query : String) :
    ∃ e, structureQuery classify extractClassification extractPriceRange
      sim maps query = Except.error e := by
  unfold structureQuery
  dsimp only
  cases hfr : extractFeatures sim maps (classify query).2.2 with
  | nil => exact ⟨PyError.valueError, rfl⟩
  | cons a t =>
    cases t with
    | nil => exact ⟨PyError.valueError, rfl⟩
    | cons b t2 =>
      cases t2 with
      | nil => exact ⟨PyError.typeError, rfl⟩
      | cons c2 t3 => exact ⟨PyError.valueError, rfl⟩

/-- C2 counterexample: the pattern pass detects reclining on the input
recliner, but the pipeline run by the orchestrator (extractFeatures) never
invokes the pattern pass, so reclining is absent from its output. -/
theorem contextual_pass_feature_missing :
    "reclining" ∈ extractContextualCategories featureContextualPatterns
        fuzzyPatterns furnitureCategoryKeys "recliner"
  ∧ "reclining" ∉ extractFeatures simScore furnitureMaps "recliner" :=
  ⟨by decide, by decide⟩

/-- C2 amended: the pipeline is the windowed matcher followed by the
disambiguation pass only; every feature in the pipeline output comes from the
windowed scan of the lowercased text, with no pattern-pass union. -/
theorem extractFeatures_from_windowed_only (sim : String → String → Score)
    (maps : FeatureMaps) (text : String) :
    ∀ f, f ∈ extractFeatures sim maps text →
      f ∈ getCategoriesFromText sim maps (lowerStr text) := by
  intro f hf
  exact mem_of_disambiguate (lowerStr text) _ f hf

/-- Witness for the C2 amended theorem at a concrete input. -/
theorem extractFeatures_from_windowed_only_w :
    "leather" ∈ getCategoriesFromText simScore furnitureMaps (lowerStr "leather seat") :=
  extractFeatures_from_windowed_only simScore furnitureMaps "leather seat" "leather"
    (by decide)

/-- C3: when the detected list contains both l shape and c shape, the raw-text
signals decide: text with l and without c drops exactly c shape, text with c
and without l drops exactly l shape, and when both signals agree (both present
or both absent) the list is unchanged. -/
theorem disambiguate_l_c_rules (fs : List String) (text : String)
    (hl : "l shape" ∈ fs) (hc : "c shape" ∈ fs) :
    (strHas "l" text = true → strHas "c" text = false →
        disambiguate text fs = fs.filter (fun f => f != "c shape"))
  ∧ (strHas "c" text = true → strHas "l" text = false →
        disambiguate text fs = fs.filter (fun f => f != "l shape"))
  ∧ (strHas "l" text = strHas "c" text → disambiguate text fs = fs) := by
  have hguard : (fs.any (fun f => strHas "l shape" f)
      && fs.any (fun f => strHas "c shape" f)) = true := by
    rw [Bool.and_eq_true, List.any_eq_true, List.any_eq_true]
    exact ⟨⟨_, hl, by decide⟩, ⟨_, hc, by decide⟩⟩
  refine ⟨?_, ?_, ?_⟩
  · intro h1 h2
    unfold disambiguate
    rw [hguard, h1, h2]
    simp
  · intro h1 h2
    unfold disambiguate
    rw [hguard, h1, h2]
    simp
  · intro h
    unfold disambiguate
    rw [hguard]
    cases hb : strHas "l" text
    · rw [hb] at h
      rw [← h]
      simp
    · rw [hb] at h
      rw [← h]
      simp

/-- Witness for C3 at a concrete input: text with l and without c. -/
theorem disambiguate_l_c_rules_w :
    disambiguate "its an l sofa" ["l shape", "c shape"] = ["l shape"] :=
  ((disambiguate_l_c_rules ["l shape", "c shape"] "its an l sofa"
    (by decide) (by decide)).1 (by decide) (by decide)).trans (by decide)

/-- C4: during one scan, the consumed set only grows along the fold, any
window overlapping a consumed index is skipped with the state unchanged, and
the accepted windows of a whole run are pairwise disjoint on token indices. -/
theorem scan_nonoverlap (sim : String → String → Score) (maps : FeatureMaps)
    (words : List String) :
    (∀ ws : List (Nat × Nat), ∀ s : ScanState, ∀ i ∈ s.consumed,
        i ∈ (ws.foldl (scanStep sim maps words) s).consumed)
  ∧ (∀ s w, overlapsConsumed s.consumed w.2 w.1 = true →
        scanStep sim maps words s w = s)
  ∧ List.Pairwise windowsDisjoint (scanRun sim maps words).accepted := by
  refine ⟨scanFold_consumed_mono sim maps words, ?_, ?_⟩
  · intro s w h
    unfold scanStep
    dsimp only
    rw [if_pos h]
  · exact (scanFold_inv sim maps words (scanWindows words.length) initialScanState
      (by intro ww hww i hi; simp [initialScanState] at hww)
      List.Pairwise.nil).2

/-- Witness for C4: a window overlapping the consumed index 0 is skipped. -/
theorem scan_nonoverlap_w :
    scanStep simScore furnitureMaps ["leather", "seat"]
      { consumed := [0], detected := [], accepted := [] } (2, 0)
    = { consumed := [0], detected := [], accepted := [] } :=
  (scan_nonoverlap simScore furnitureMaps ["leather", "seat"]).2.1
    { consumed := [0], detected := [], accepted := [] } (2, 0) (by decide)

/-- C5: a candidate phrase containing leather passes the contextual check iff
a furniture-part term occurs in the clamped two-token window around the
phrase start; phrases without leather pass unconditionally; end to end,
leather wallet yields no feature while leather sofa cushion yields leather. -/
theorem leather_contextual_guard :
    (∀ phrase words position, strHas "leather" phrase = true →
      (hasContextualMatch phrase words position = true ↔
        ∃ part ∈ furnitureParts,
          strHas part (lowerStr (String.intercalate " "
            ((words.drop (position - 2)).take
              (min words.length (position + 3) - (position - 2))))) = true))
  ∧ (∀ phrase words position, strHas "leather" phrase = false →
      hasContextualMatch phrase words position = true)
  ∧ extractFeatures simScore furnitureMaps "leather wallet" = []
  ∧ "leather" ∈ extractFeatures simScore furnitureMaps "leather sofa cushion" := by
  refine ⟨?_, ?_, by decide, by decide⟩
  · intro phrase words position h
    unfold hasContextualMatch
    rw [h]
    simp [List.any_eq_true]
  · intro phrase words position h
    unfold hasContextualMatch
    rw [h]
    simp

/-- Witness for C5: a phrase without leather passes unconditionally. -/
theorem leather_contextual_guard_w :
    hasContextualMatch "metal legs" ["metal", "legs"] 0 = true :=
  leather_contextual_guard.2.1 "metal legs" ["metal", "legs"] 0 (by decide)

/-- C6: with no exact match, a fuzzy lookup happens exactly for phrases longer
than 6 characters, against the threshold 96/100 when the phrase contains
detail or metal and 93/100 otherwise; at a similarity score of exactly 94/100
a phrase containing metal is rejected while the same-length phrase without
metal or detail is accepted. -/
theorem fuzzy_gate_and_thresholds :
    (∀ (sim : String → String → Score) (maps : FeatureMaps) (phrase : String),
      alookup maps.synToFeat phrase = none → phrase.length ≤ 6 →
        matchPhrase sim maps phrase = none)
  ∧ (∀ (sim : String → String → Score) (maps : FeatureMaps) (phrase : String),
      alookup maps.synToFeat phrase = none → 6 < phrase.length →
        matchPhrase sim maps phrase =
          (fuzzyMatch sim phrase maps.vocab (thresholdFor phrase)).bind
            (alookup maps.synToFeat))
  ∧ (∀ phrase, (strHas "detail" phrase || strHas "metal" phrase) = true →
      thresholdFor phrase = { num := 96, den := 100 })
  ∧ (∀ phrase, (strHas "detail" phrase || strHas "metal" phrase) = false →
      thresholdFor phrase = { num := 93, den := 100 })
  ∧ matchPhrase (fun _ _ => { num := 94, den := 100 }) furnitureMaps "metallic arm"
      = none
  ∧ matchPhrase (fun _ _ => { num := 94, den := 100 }) furnitureMaps "petallic arm"
      = some "l shape" := by
  refine ⟨?_, ?_, ?_, ?_, by decide, by decide⟩
  · intro sim maps phrase ha hlen
    unfold matchPhrase
    rw [ha]
    dsimp only
    rw [if_neg (Nat.not_lt.mpr hlen)]
  · intro sim maps phrase ha hlen
    unfold matchPhrase
    rw [ha]
    dsimp only
    rw [if_pos hlen]
    cases hf : fuzzyMatch sim phrase maps.vocab (thresholdFor phrase) <;> simp [hf]
  · intro phrase h
    unfold thresholdFor
    rw [h]
    simp
  · intro phrase h
    unfold thresholdFor
    rw [h]
    simp

/-- Witness for C6: a short phrase with no exact match resolves to nothing. -/
theorem fuzzy_gate_and_thresholds_w :
    matchPhrase simScore furnitureMaps "wallet" = none :=
  fuzzy_gate_and_thresholds.1 simScore furnitureMaps "wallet" (by decide) (by decide)

set_option maxRecDepth 200000 in
/-- C7: the claim fails on the code. On a query whose feature list has exactly
two entries, the unpacking at line 51 succeeds (corrupting corrected_query to
the second feature), and the assembly itself then raises TypeError because the
ParserResult dataclass call omits the required styles field, so the claimed
assembled ParserResult never exists. -/
theorem structureQuery_typeError_on_assembly :
    structureQuery classifyStub extractClassificationStub extractPriceRangeStub
      simScore furnitureMaps "l shape leather seat"
    = Except.error PyError.typeError := rfl

/-- C8: extractFeatures on empty or all-whitespace text returns the empty
feature list, for every similarity function and lexicon. -/
theorem extractFeatures_on_whitespace (sim : String → String → Score)
    (maps : FeatureMaps) (text : String)
    (h : ∀ c ∈ text.toList, c.isWhitespace = true) :
    extractFeatures sim maps text = [] := by
  have hsplit : pySplit (lowerStr text) = [] := by
    show splitWsAux (text.toList.map Char.toLower) [] = []
    apply splitWsAux_all_ws
    intro c hc
    obtain ⟨d, hd, rfl⟩ := List.mem_map.mp hc
    exact toLower_ws d (h d hd)
  unfold extractFeatures getCategoriesFromText scanRun
  dsimp only
  rw [hsplit]
  have h0 : scanWindows (List.length ([] : List String)) = [] := by decide
  rw [h0]
  simp [initialScanState, disambiguate]

/-- Witness for C8 on a concrete whitespace-only input. -/
theorem extractFeatures_on_whitespace_w :
    extractFeatures simScore furnitureMaps "  " = [] :=
  extractFeatures_on_whitespace simScore furnitureMaps "  " (by decide)

/-- C9: every extracted feature is a canonical feature, a value of the synonym
mapping built from the lexicon, hence a key of FURNITURE_CATEGORY with exactly
one category under feature_to_category, and the output has no duplicates. -/
theorem features_canonical_and_nodup (sim : String → String → Score)
    (cat : List (String × List String)) (cmap : List (String × String))
    (text : String) :
    (∀ f ∈ extractFeatures sim (buildFeatureMappings cat) text,
        f ∈ cat.map (fun p => p.1)
      ∧ ∃! c, alookup (featureToCategory cmap cat) f = some c)
  ∧ (extractFeatures sim (buildFeatureMappings cat) text).Nodup := by
  have hvals : (buildFeatureMappings cat).synToFeat.map (fun p => p.2)
      = cat.map (fun p => p.1) := by
    unfold buildFeatureMappings
    rw [List.map_map]
    rfl
  have hkeys : (featureToCategory cmap cat).map (fun p => p.1)
      = cat.map (fun p => p.1) := by
    unfold featureToCategory
    rw [List.map_map]
    rfl
  have hmain := scanFold_detected_inv sim (buildFeatureMappings cat)
    (pySplit (lowerStr text)) (scanWindows (pySplit (lowerStr text)).length)
    initialScanState (by intro f hf; simp [initialScanState] at hf)
    List.nodup_nil
  constructor
  · intro f hf
    have hf1 : f ∈ disambiguate (lowerStr text)
        (getCategoriesFromText sim (buildFeatureMappings cat) (lowerStr text)) := hf
    have hf2 := mem_of_disambiguate _ _ _ hf1
    have hf3 : f ∈ cat.map (fun p => p.1) := by
      rw [← hvals]
      exact hmain.1 f hf2
    refine ⟨hf3, ?_⟩
    obtain ⟨v, hv⟩ := alookup_of_mem_keys _ f (by rw [hkeys]; exact hf3)
    exact ⟨v, hv, fun y hy => Option.some.inj (hy.symm.trans hv)⟩
  · show List.Nodup (disambiguate (lowerStr text)
      (getCategoriesFromText sim (buildFeatureMappings cat) (lowerStr text)))
    exact disambiguate_nodup _ _ hmain.2

/-- Witness for C9 at a concrete input. -/
theorem features_canonical_and_nodup_w :
    "leather" ∈ furnitureCategory.map (fun p => p.1) :=
  ((features_canonical_and_nodup simScore furnitureCategory [] "leather seat").1
    "leather" (by decide)).1

/-- C10: suggestsQuery always returns a (truthy) SuggestionResult, so
suggestQueryResults never takes its return False branch: it always returns
the mapping with exactly the keys product_name, brand_name and styles, each
bound to a list. -/
theorem suggestQueryResults_always_mapping
    (extractPB : String → Option (List String) × Option (List String))
    (extractStyles : String → List String) (query : String) :
    dataclassTruthy (suggestsQuery extractPB extractStyles query) = true
  ∧ suggestQueryResults extractPB extractStyles query =
      SuggestOutcome.mapping ((extractPB query).1.getD [])
        ((extractPB query).2.getD []) (extractStyles query) :=
  ⟨rfl, rfl⟩
